import Mathlib

/-!
# Verification of the watchman event pipeline

A shallow embedding of `internal/watcher/watchman.go` (package `watcher`)
from the `caoenergy/watchman` repository, together with theorems settling
the specification claims about the capture parser, handle resolution,
the prefix filter, the dedup cache, the mask-to-kind mapping and
initialization unwinding.

Conventions of the embedding:
* Go byte slices are `List Nat` (each element a byte value).
* A Go panic (out-of-range slice expression) is modelled by `Option`:
  a function returns `none` exactly when the Go original would panic.
* Kernel syscalls and the external LRU/radix libraries are modelled at
  their interfaces, documented at each definition.
-/

namespace Watchman

/-! ## Constants

Byte-level constants from `watchman.go` and the Linux fanotify ABI
(`golang.org/x/sys/unix`).  `EventMetadataLen` is
`unsafe.Sizeof(unix.FanotifyEventMetadata{})`: the struct holds
`event_len(4) vers(1) reserved(1) metadata_len(2) mask(8) fd(4) pid(4)`,
24 bytes in total. -/

def EventMetadataLen : Nat := 24

/-- info_type(1) + pad(1) + len(2) + fsid(8) = 12 (source constant). -/
def EventInfoFidLen : Nat := 12

/-- file_handle header: handle_bytes(4) + handle_type(4) (source constant). -/
def FileHandleLen : Nat := 8

def FANOTIFY_METADATA_VERSION : Nat := 3
def FAN_Q_OVERFLOW : Nat := 0x4000
def FAN_ONDIR : Nat := 0x40000000
def FAN_CREATE : Nat := 0x100
def FAN_DELETE : Nat := 0x200
def FAN_DELETE_SELF : Nat := 0x400
def FAN_CLOSE_WRITE : Nat := 0x8
def FAN_MOVED_TO : Nat := 0x80
def FAN_EVENT_INFO_TYPE_DFID_NAME : Nat := 2

/-! ## Byte-slice primitives -/

/-- Go slice expression `l[lo:hi]`: panics (`none`) unless `lo ≤ hi ≤ len l`. -/
def slice? (l : List Nat) (lo hi : Nat) : Option (List Nat) :=
  if lo ≤ hi ∧ hi ≤ l.length then some ((l.take hi).drop lo) else none

/-- Go slice expression `l[n:]`: panics (`none`) unless `n ≤ len l`. -/
def drop? (l : List Nat) (n : Nat) : Option (List Nat) :=
  if n ≤ l.length then some (l.drop n) else none

/-- `binary.LittleEndian.Uint32` of the four bytes at offset `off`.
Offsets used in the source are always guarded by a length check, so the
out-of-range default `0` is never read where this is applied. -/
def uint32le (l : List Nat) (off : Nat) : Nat :=
  l.getD off 0 + 0x100 * l.getD (off + 1) 0 + 0x10000 * l.getD (off + 2) 0 +
    0x1000000 * l.getD (off + 3) 0

/-- `binary.LittleEndian.Uint64` of the eight bytes at offset `off`. -/
def uint64le (l : List Nat) (off : Nat) : Nat :=
  uint32le l off + 0x100000000 * uint32le l (off + 4)

/-! ## The Event type (struct `Event` in the source) -/

structure Event where
  mask : Nat
  isDir : Bool
  handle : List Nat
  deriving DecidableEq, Repr

/-! ## Capture stage: the per-buffer parse loop of `captureEvents`

The loop body of `captureEvents` (watchman.go:166-205) parses one read
buffer into the events it sends on `eventChan`.  The recursion is
expressed with explicit fuel (one unit per loop iteration; each
iteration consumes `eventLen ≥ 1` bytes so `data.length` units always
suffice); `captureLoop_fuel` below shows the result does not depend on
the fuel once it is sufficient.  The result is `none` exactly when the
Go loop would panic (the slice expression `data[EventMetadataLen:eventLen]`
with `eventLen < EventMetadataLen`), otherwise `some` of the enqueued
events in order. -/

def captureLoop : Nat → List Nat → Option (List Event)
  | 0, _ => some []
  | fuel + 1, data =>
    if data.length < EventMetadataLen then some []
    else
      let eventLen := uint32le data 0
      if eventLen > data.length ∨ eventLen = 0 then some []
      else if data.getD 4 0 ≠ FANOTIFY_METADATA_VERSION then
        captureLoop fuel (data.drop eventLen)
      else
        let mask := uint64le data 8
        if mask &&& FAN_Q_OVERFLOW ≠ 0 then
          captureLoop fuel (data.drop eventLen)
        else
          match slice? data EventMetadataLen eventLen with
          | none => none
          | some eventData =>
            let handle :=
              if EventInfoFidLen + FileHandleLen ≤ eventData.length then eventData else []
            (captureLoop fuel (data.drop eventLen)).map
              (fun evs => { mask := mask, isDir := mask &&& FAN_ONDIR != 0, handle := handle } :: evs)

/-- Parse of one read buffer by `captureEvents` (watchman.go:164-205). -/
def captureEvents (data : List Nat) : Option (List Event) :=
  captureLoop data.length data

/-- The Event that the capture loop enqueues for a self-delimiting record
`r` (one whose declared `event_len` equals its own length). -/
def recordEvent (r : List Nat) : Event :=
  { mask := uint64le r 8,
    isDir := uint64le r 8 &&& FAN_ONDIR != 0,
    handle :=
      if EventInfoFidLen + FileHandleLen ≤ r.length - EventMetadataLen then
        r.drop EventMetadataLen
      else [] }

/-- A structurally valid record, ready for concatenation into a buffer:
its declared `event_len` equals its length and covers at least the
24-byte metadata struct, its version byte is the kernel constant, and
the overflow bit is clear in its mask. -/
def wellFormedRecord (r : List Nat) : Prop :=
  EventMetadataLen ≤ r.length ∧ uint32le r 0 = r.length ∧
    r.getD 4 0 = FANOTIFY_METADATA_VERSION ∧ uint64le r 8 &&& FAN_Q_OVERFLOW = 0

instance (r : List Nat) : Decidable (wellFormedRecord r) := by
  unfold wellFormedRecord; infer_instance

/-! ## Handle resolution (`resolve`, watchman.go:253-308) -/

/-- Go `string(bytes)` for the byte lists that occur here (filenames). -/
def strOfBytes (l : List Nat) : String :=
  String.mk (l.map Char.ofNat)

/-- `resolve` (watchman.go:253-308).  The middle section of the Go
function — `fdcManager.Get(base64(handleRaw))`, and on a miss
`unix.OpenByHandleAt` on the mount fd followed by `os.Readlink` of
`/proc/self/fd/<n>` and `fdcManager.Add` — is abstracted by the
`lookup` oracle: `lookup handleRaw = some basePath` is a successful
resolution of the raw handle body to a directory path (the FDC cache is
keyed by the handle body alone), `none` is a syscall or readlink
failure.  Result `some (dir, name, ok)` mirrors the Go returns;
`none` would mean a panicking slice access (`c9_resolve_no_panic`
proves this never happens). -/
def resolve (lookup : List Nat → Option String) (data : List Nat) :
    Option (String × String × Bool) :=
  if data.length < EventInfoFidLen then some ("", "", false)
  else
    match data.get? 0 with
    | none => none
    | some infoType =>
      let handleData := data.drop EventInfoFidLen
      if handleData.length < FileHandleLen then some ("", "", false)
      else
        match slice? handleData 0 4, slice? handleData 4 8 with
        | some hb4, some _ =>
          let handleBytes := uint32le hb4 0
          if handleBytes > handleData.length - FileHandleLen then some ("", "", false)
          else
            match slice? handleData FileHandleLen (FileHandleLen + handleBytes) with
            | none => none
            | some handleRaw =>
              match lookup handleRaw with
              | none => some ("", "", false)
              | some basePath =>
                if infoType = FAN_EVENT_INFO_TYPE_DFID_NAME then
                  if handleData.length > FileHandleLen + handleBytes then
                    match drop? handleData (FileHandleLen + handleBytes) with
                    | none => none
                    | some rest0 =>
                      let name := strOfBytes (rest0.takeWhile (fun c => c != 0))
                      if name ≠ "" ∧ basePath ≠ "" then
                        if basePath = "/" then some ("/", name, true)
                        else some (basePath, name, true)
                      else some (basePath, "", true)
                  else some (basePath, "", true)
                else some (basePath, "", true)
        | _, _ => none

/-! ## Mask-to-kind mapping (`maskToString`, watchman.go:310-331) -/

/-- Go `fmt.Sprintf("%x", n)`: lowercase hexadecimal, no leading zeros. -/
def hexString (n : Nat) : String :=
  (Nat.toDigits 16 n).asString

/-- `maskToString` (watchman.go:310-331): test the five bits in source
order, appending the matching names; empty result falls back to
`fmt.Sprintf("0x%x", mask)`. -/
def maskToString (mask : Nat) : String :=
  let events : List String := []
  let events := if mask &&& FAN_CREATE ≠ 0 then events ++ ["CREATE"] else events
  let events := if mask &&& FAN_DELETE ≠ 0 then events ++ ["DELETE"] else events
  let events := if mask &&& FAN_DELETE_SELF ≠ 0 then events ++ ["DELETE_SELF"] else events
  let events := if mask &&& FAN_CLOSE_WRITE ≠ 0 then events ++ ["CLOSE_WRITE"] else events
  let events := if mask &&& FAN_MOVED_TO ≠ 0 then events ++ ["MOVED_TO"] else events
  if events = [] then "0x" ++ hexString mask
  else String.intercalate "|" events

/-- The spec's ordered name table for §4.7. -/
def specMaskTable : List (Nat × String) :=
  [(FAN_CREATE, "CREATE"), (FAN_DELETE, "DELETE"), (FAN_DELETE_SELF, "DELETE_SELF"),
    (FAN_CLOSE_WRITE, "CLOSE_WRITE"), (FAN_MOVED_TO, "MOVED_TO")]

/-- Spec-side restatement of §4.7, for comparison with `maskToString`:
evaluate the bits in the fixed order of `specMaskTable`, join the
matching names with a pipe, and fall back to hex when none match. -/
def specMaskToString (mask : Nat) : String :=
  let names := specMaskTable.filterMap (fun e => if mask &&& e.1 ≠ 0 then some e.2 else none)
  if names = [] then "0x" ++ hexString mask
  else String.intercalate "|" names

/-! ## Prefix filter -/

/-- The `matched` flag of `wm.filter.LongestPrefix(fullPath)`
(watchman.go:229).  The filter is the `armon/go-radix` tree holding the
configured watched paths (`filter.Insert(p, true)` in `Initialize`);
`LongestPrefix` walks the tree for the longest inserted key that is a
prefix of the query *as a string*, and its `matched` flag is true
exactly when some inserted key is a string prefix of the query.  The
comparison is on the characters of the strings. -/
def filterMatch (ps : List String) (q : String) : Bool :=
  ps.any (fun p => p.data.isPrefixOf q.data)

/-- Spec-side matcher of §4.5, for comparison with `filterMatch`: a
configured path matches the query when it is a prefix *at a
path-component boundary* — equal to the query, or followed in the
query by a separator (a configured root "/" matches every absolute
path). -/
def specBoundaryMatch (ps : List String) (q : String) : Bool :=
  ps.any (fun p =>
    p == q || (if p == "/" then "/".data.isPrefixOf q.data
               else (p ++ "/").data.isPrefixOf q.data))

/-! ## Process stage (`processEvents`, watchman.go:210-251) -/

/-- `filepath.Join(directory, filename)` (watchman.go:223), modelled on
the domain of its actual arguments: `directory` is a cleaned absolute
path with no trailing slash except when it is exactly `"/"` (it comes
from `os.Readlink` of a `/proc/self/fd` entry), and `filename` is a
single separator-free component (it comes from a kernel record name).
On that domain Go's `Join` — `Clean(dir + "/" + name)` — returns the
concatenation with a single separator. -/
def filepathJoin (dir name : String) : String :=
  if dir = "/" then "/" ++ name else dir ++ "/" ++ name

/-- One iteration of the `processEvents` receive loop
(watchman.go:215-248) on event `ev`, given the filter contents and the
current FPC dedup cache.  The expirable-LRU `fpcManager` is modelled as
an association list over the not-yet-expired entries: `Get` is
`List.lookup`, `Add` prepends; expiry and size eviction happen between
iterations and are therefore reflected by the caller's choice of the
`fpc` argument.  The result is `some (delivery, fpc')` where
`delivery = some (eventType, dir, name, isDir)` means every listener in
the registry snapshot is invoked with exactly that argument tuple and
`delivery = none` means the event was dropped; an outer `none` would be
a panic propagated from `resolve`. -/
def processEvent (lookup : List Nat → Option String) (filter : List String)
    (fpc : List (String × String)) (ev : Event) :
    Option (Option (String × String × String × Bool) × List (String × String)) :=
  match resolve lookup ev.handle with
  | none => none
  | some (directory, filename, ok) =>
    if ok = false ∨ directory = "" ∨ filename = "" then some (none, fpc)
    else
      let fullPath := filepathJoin directory filename
      if ev.isDir then some (none, fpc)
      else if filterMatch filter fullPath = false then some (none, fpc)
      else
        let eventType := maskToString ev.mask
        match fpc.lookup fullPath with
        | some _ => some (none, fpc)
        | none => some (some (eventType, directory, filename, ev.isDir), (fullPath, eventType) :: fpc)

/-! ## Initialization (`Initialize`, watchman.go:59-98)

The three kernel acquisitions are abstracted by an environment of
oracles: `fanotifyInit` is `unix.FanotifyInit(FAN_REPORT_DFID_NAME |
FAN_CLOEXEC, O_RDONLY)`, `fanotifyMark ffd` is the filesystem-wide
`unix.FanotifyMark` registration of the five-event mask on `"/"` using
descriptor `ffd`, and `openRoot` is `unix.Open("/", O_DIRECTORY |
O_RDONLY | O_CLOEXEC, 0)`.  `Except.error e` is a failing syscall with
error text `e`, `Except.ok fd` a success returning a descriptor. -/

structure InitEnv where
  fanotifyInit : Except String Nat
  fanotifyMark : Nat → Except String Unit
  openRoot : Except String Nat

/-- `Initialize` (watchman.go:59-98) restricted to its acquisition and
unwinding logic: the returned pair is the result (the two descriptors
`(ffd, rfd)` on success, the wrapped error otherwise, with the Go
`fmt.Errorf` prefixes `"init: "`, `"mark: "`, `"open root: "`) together
with the list of descriptors the function closed before returning
(`unix.Close(ffd)` on the two later error paths). -/
def Initialize (env : InitEnv) : Except String (Nat × Nat) × List Nat :=
  match env.fanotifyInit with
  | .error e => (.error ("init: " ++ e), [])
  | .ok ffd =>
    match env.fanotifyMark ffd with
    | .error e => (.error ("mark: " ++ e), [ffd])
    | .ok _ =>
      match env.openRoot with
      | .error e => (.error ("open root: " ++ e), [ffd])
      | .ok rfd => (.ok (ffd, rfd), [])

/-! ## Lemmas about the capture parse loop -/

theorem slice?_pos (l : List Nat) (lo hi : Nat) (h1 : lo ≤ hi) (h2 : hi ≤ l.length) :
    slice? l lo hi = some ((l.take hi).drop lo) :=
  if_pos ⟨h1, h2⟩

theorem uint32le_append (r b : List Nat) (off : Nat) (h : off + 4 ≤ r.length) :
    uint32le (r ++ b) off = uint32le r off := by
  unfold uint32le
  rw [List.getD_append _ _ _ _ (by omega), List.getD_append _ _ _ _ (by omega),
    List.getD_append _ _ _ _ (by omega), List.getD_append _ _ _ _ (by omega)]

theorem uint64le_append (r b : List Nat) (off : Nat) (h : off + 8 ≤ r.length) :
    uint64le (r ++ b) off = uint64le r off := by
  unfold uint64le
  rw [uint32le_append _ _ _ (by omega), uint32le_append _ _ _ (by omega)]

/-- The fuel of `captureLoop` is irrelevant once it covers the buffer
length (each iteration consumes at least one byte). -/
theorem captureLoop_fuel : ∀ (f1 f2 : Nat) (data : List Nat),
    data.length ≤ f1 → data.length ≤ f2 → captureLoop f1 data = captureLoop f2 data := by
  intro f1
  induction f1 with
  | zero =>
    intro f2 data h1 _
    have hd : data = [] := List.length_eq_zero.mp (Nat.le_zero.mp h1)
    subst hd
    cases f2 with
    | zero => rfl
    | succ m => simp [captureLoop, EventMetadataLen]
  | succ n ih =>
    intro f2 data h1 h2
    cases f2 with
    | zero =>
      have hd : data = [] := List.length_eq_zero.mp (Nat.le_zero.mp h2)
      subst hd
      simp [captureLoop, EventMetadataLen]
    | succ m =>
      simp only [captureLoop]
      by_cases h24 : data.length < EventMetadataLen
      · simp only [if_pos h24]
      · rw [if_neg h24, if_neg h24]
        by_cases hbr : uint32le data 0 > data.length ∨ uint32le data 0 = 0
        · rw [if_pos hbr, if_pos hbr]
        · rw [if_neg hbr, if_neg hbr]
          push_neg at hbr
          have hlen1 : (data.drop (uint32le data 0)).length ≤ n := by
            rw [List.length_drop]; omega
          have hlen2 : (data.drop (uint32le data 0)).length ≤ m := by
            rw [List.length_drop]; omega
          by_cases hver : data.getD 4 0 ≠ FANOTIFY_METADATA_VERSION
          · rw [if_pos hver, if_pos hver]
            exact ih _ _ hlen1 hlen2
          · rw [if_neg hver, if_neg hver]
            by_cases hov : uint64le data 8 &&& FAN_Q_OVERFLOW ≠ 0
            · rw [if_pos hov, if_pos hov]
              exact ih _ _ hlen1 hlen2
            · rw [if_neg hov, if_neg hov]
              cases slice? data EventMetadataLen (uint32le data 0) with
              | none => rfl
              | some eventData =>
                rw [ih _ _ hlen1 hlen2]

/-- Parsing a buffer that starts with a self-delimiting record `r`
(declared length = actual length ≥ 24): the version-mismatch and
overflow cases skip `r`, otherwise its event is prepended. -/
theorem captureEvents_append (r b : List Nat) (h24 : EventMetadataLen ≤ r.length)
    (hlen : uint32le r 0 = r.length) :
    captureEvents (r ++ b) =
      if r.getD 4 0 ≠ FANOTIFY_METADATA_VERSION then captureEvents b
      else if uint64le r 8 &&& FAN_Q_OVERFLOW ≠ 0 then captureEvents b
      else (captureEvents b).map (fun evs => recordEvent r :: evs) := by
  have hEM : EventMetadataLen = 24 := rfl
  have hLapp : (r ++ b).length = r.length + b.length := List.length_append r b
  obtain ⟨k, hk⟩ : ∃ k, (r ++ b).length = k + 1 := ⟨(r ++ b).length - 1, by omega⟩
  unfold captureEvents
  rw [hk]
  simp only [captureLoop]
  rw [if_neg (by omega : ¬ (r ++ b).length < EventMetadataLen)]
  rw [uint32le_append r b 0 (by omega), hlen]
  rw [if_neg (by omega : ¬ (r.length > (r ++ b).length ∨ r.length = 0))]
  rw [List.getD_append _ _ _ _ (by omega : 4 < r.length)]
  rw [uint64le_append r b 8 (by omega)]
  rw [slice?_pos (r ++ b) EventMetadataLen r.length (by omega) (by omega)]
  rw [List.take_left r b]
  rw [List.drop_left r b]
  rw [captureLoop_fuel k b.length b (by omega) (le_refl _)]
  by_cases hver : r.getD 4 0 ≠ FANOTIFY_METADATA_VERSION
  · rw [if_pos hver, if_pos hver]
  · rw [if_neg hver, if_neg hver]
    by_cases hov : uint64le r 8 &&& FAN_Q_OVERFLOW ≠ 0
    · rw [if_pos hov, if_pos hov]
    · rw [if_neg hov, if_neg hov]
      simp [recordEvent]

theorem captureEvents_nil : captureEvents [] = some [] := rfl

/-- Concatenated well-formed records parse to their events followed by
whatever the tail parses to. -/
theorem captureEvents_flatten_wf (rs : List (List Nat)) (t : List Nat)
    (h : ∀ r ∈ rs, wellFormedRecord r) :
    captureEvents (rs.flatten ++ t) =
      (captureEvents t).map (fun evs => rs.map recordEvent ++ evs) := by
  induction rs with
  | nil =>
    simp only [List.flatten_nil, List.nil_append, List.map_nil]
    cases captureEvents t <;> simp
  | cons r rs ih =>
    have hr : wellFormedRecord r := h r (List.mem_cons_self r rs)
    have hrs : ∀ x ∈ rs, wellFormedRecord x := fun x hx => h x (List.mem_cons_of_mem r hx)
    obtain ⟨h24, hlen, hver, hov⟩ := hr
    rw [List.flatten_cons, List.append_assoc, captureEvents_append r (rs.flatten ++ t) h24 hlen]
    rw [if_neg (not_not_intro hver), if_neg (not_not_intro hov)]
    rw [ih hrs]
    cases captureEvents t <;> simp

/-- A truncated head record (declared `event_len` exceeding the buffer,
or zero) stops the parse immediately with no events and no panic. -/
theorem captureEvents_truncated (t : List Nat)
    (ht : uint32le t 0 > t.length ∨ uint32le t 0 = 0) :
    captureEvents t = some [] := by
  unfold captureEvents
  cases hk : t.length with
  | zero => rfl
  | succ k =>
    simp only [captureLoop]
    by_cases h1 : t.length < EventMetadataLen
    · rw [if_pos h1]
    · rw [if_neg h1, if_pos ht]

/-- A single well-formed record parses to exactly its event. -/
theorem captureEvents_single (r : List Nat) (h : wellFormedRecord r) :
    captureEvents r = some [recordEvent r] := by
  have h2 := captureEvents_flatten_wf [r] [] (by
    intro x hx
    rw [List.mem_singleton] at hx
    subst hx
    exact h)
  simpa using h2

/-! ## Claim C2 -/

/-- C2 counterexample: a buffer of two consecutive records that satisfy
the claim's well-formedness (declared `event_len` equal to the record
length 16, hence nonzero and within the remaining bytes;
`metadata_version` equal to the kernel constant; overflow bit clear in
the mask) on which the capture parse does not enqueue two events: it
panics (the Go slice expression `data[24:16]` is out of range, modelled
by `none`) and enqueues nothing. -/
theorem c2_counterexample :
    (let r : List Nat := [16, 0, 0, 0, 3, 0, 0, 0, 0, 0, 0, 0, 0, 0, 0, 0]
     uint32le r 0 = 16 ∧ r.length = 16 ∧ r.getD 4 0 = FANOTIFY_METADATA_VERSION ∧
       uint64le r 8 &&& FAN_Q_OVERFLOW = 0 ∧
       captureEvents (r ++ r) = none) := by
  decide

/-- C2 (amended): for every input buffer consisting of N consecutive
well-formed records — each record's declared `event_len` equal to the
record's length and **at least `EventMetadataLen` (24)**,
`metadata_version` equal to the kernel constant, overflow bit clear —
the capture parse enqueues exactly N events, in record order. -/
theorem c2_parse_complete (rs : List (List Nat)) (h : ∀ r ∈ rs, wellFormedRecord r) :
    captureEvents rs.flatten = some (rs.map recordEvent) := by
  have h2 := captureEvents_flatten_wf rs [] h
  rw [List.append_nil] at h2
  rw [h2, captureEvents_nil]
  simp

/-- Witness for `c2_parse_complete`: two concrete well-formed records of
different sizes (44 and 24 bytes) parse to their two events in order. -/
theorem c2_parse_complete_witness :
    (∀ r ∈ ([[44, 0, 0, 0, 3, 0, 0, 0, 0, 1, 0, 0, 0, 0, 0, 0, 9, 9, 9, 9, 9, 9, 9, 9,
              2, 0, 0, 0, 0, 0, 0, 0, 0, 0, 0, 0, 1, 0, 0, 0, 0, 0, 0, 7],
             [24, 0, 0, 0, 3, 0, 0, 0, 0, 1, 0, 0, 0, 0, 0, 0, 0, 0, 0, 0, 0, 0, 0, 0]] :
            List (List Nat)), wellFormedRecord r) ∧
      captureEvents
          ([[44, 0, 0, 0, 3, 0, 0, 0, 0, 1, 0, 0, 0, 0, 0, 0, 9, 9, 9, 9, 9, 9, 9, 9,
             2, 0, 0, 0, 0, 0, 0, 0, 0, 0, 0, 0, 1, 0, 0, 0, 0, 0, 0, 7],
            [24, 0, 0, 0, 3, 0, 0, 0, 0, 1, 0, 0, 0, 0, 0, 0, 0, 0, 0, 0, 0, 0, 0, 0]] :
            List (List Nat)).flatten =
        some [⟨256, false, [2, 0, 0, 0, 0, 0, 0, 0, 0, 0, 0, 0, 1, 0, 0, 0, 0, 0, 0, 7]⟩,
              ⟨256, false, []⟩] :=
  ⟨by decide, (c2_parse_complete _ (by decide)).trans (by decide)⟩

/-! ## Claim C3 -/

/-- C3: for every buffer formed of well-formed records followed by a
final truncated record (declared `event_len` exceeding the bytes that
remain, or zero), the capture parse stops at the truncated record
without panicking (`some`, never `none`) and enqueues exactly the
events of the preceding well-formed records. -/
theorem c3_truncation_safe (rs : List (List Nat)) (t : List Nat)
    (hwf : ∀ r ∈ rs, wellFormedRecord r)
    (ht : uint32le t 0 > t.length ∨ uint32le t 0 = 0) :
    captureEvents (rs.flatten ++ t) = some (rs.map recordEvent) := by
  rw [captureEvents_flatten_wf rs t hwf, captureEvents_truncated t ht]
  simp

/-- Witness for `c3_truncation_safe`: one well-formed 24-byte record
followed by a 4-byte tail declaring `event_len` 100 parses to exactly
the one preceding event. -/
theorem c3_truncation_safe_witness :
    (∀ r ∈ ([[24, 0, 0, 0, 3, 0, 0, 0, 0, 1, 0, 0, 0, 0, 0, 0, 0, 0, 0, 0, 0, 0, 0, 0]] :
            List (List Nat)), wellFormedRecord r) ∧
      (uint32le [100, 0, 0, 0] 0 > ([100, 0, 0, 0] : List Nat).length ∨
        uint32le [100, 0, 0, 0] 0 = 0) ∧
      captureEvents
          (([[24, 0, 0, 0, 3, 0, 0, 0, 0, 1, 0, 0, 0, 0, 0, 0, 0, 0, 0, 0, 0, 0, 0, 0]] :
            List (List Nat)).flatten ++ [100, 0, 0, 0]) =
        some [⟨256, false, []⟩] :=
  ⟨by decide, by decide,
    (c3_truncation_safe _ _ (by decide) (by decide)).trans (by decide)⟩

/-! ## Claim C4 -/

/-- C4: a record whose mask has the queue-overflow bit set produces no
event and does not stop the parse: a following well-formed CREATE
record in the same buffer still yields its event (with the CREATE bit
set in its mask), and it is the only event of the buffer. -/
theorem c4_overflow_skip (r1 r2 : List Nat)
    (h1len : EventMetadataLen ≤ r1.length) (h1ev : uint32le r1 0 = r1.length)
    (h1ver : r1.getD 4 0 = FANOTIFY_METADATA_VERSION)
    (h1ov : uint64le r1 8 &&& FAN_Q_OVERFLOW ≠ 0)
    (h2 : wellFormedRecord r2) (h2c : uint64le r2 8 &&& FAN_CREATE ≠ 0) :
    captureEvents (r1 ++ r2) = some [recordEvent r2] ∧
      (recordEvent r2).mask &&& FAN_CREATE ≠ 0 := by
  constructor
  · rw [captureEvents_append r1 r2 h1len h1ev]
    rw [if_neg (not_not_intro h1ver), if_pos h1ov]
    exact captureEvents_single r2 h2
  · exact h2c

/-- Witness for `c4_overflow_skip`: a concrete overflow record (mask
`0x4000`) followed by a concrete CREATE record (mask `0x100`) parses to
exactly the CREATE event. -/
theorem c4_overflow_skip_witness :
    captureEvents
        (([24, 0, 0, 0, 3, 0, 0, 0, 0, 64, 0, 0, 0, 0, 0, 0, 0, 0, 0, 0, 0, 0, 0, 0] :
          List Nat) ++
          [24, 0, 0, 0, 3, 0, 0, 0, 0, 1, 0, 0, 0, 0, 0, 0, 0, 0, 0, 0, 0, 0, 0, 0]) =
      some [⟨256, false, []⟩] :=
  ((c4_overflow_skip _ _ (by decide) (by decide) (by decide) (by decide) (by decide)
      (by decide)).1).trans (by decide)

/-! ## Claim C9 -/

/-- C9: `resolve` terminates without panicking on every byte-slice
input of any length and contents, for every outcome of the
cache/syscall oracle: each slice access (the 12-byte info-FID header,
the 8-byte file_handle header, the handle body of declared length
`handle_bytes`, and the trailing name) is guarded by a preceding length
check, so the result is never the panic marker `none` — any invalid
layout yields the failure result `("", "", false)` instead of an
out-of-range access. -/
theorem c9_resolve_no_panic (lookup : List Nat → Option String) (data : List Nat) :
    (resolve lookup data).isSome = true := by
  have hEI : EventInfoFidLen = 12 := rfl
  have hFH : FileHandleLen = 8 := rfl
  unfold resolve
  simp only [hEI, hFH]
  by_cases h1 : data.length < 12
  · rw [if_pos h1]; rfl
  · rw [if_neg h1]
    push_neg at h1
    obtain ⟨a, ha⟩ : ∃ a, data.get? 0 = some a := by
      cases data with
      | nil => exact absurd h1 (by simp)
      | cons x xs => exact ⟨x, rfl⟩
    rw [ha]
    dsimp only
    by_cases h2 : (data.drop 12).length < 8
    · rw [if_pos h2]; rfl
    · rw [if_neg h2]
      push_neg at h2
      rw [slice?_pos (data.drop 12) 0 4 (by omega) (by omega)]
      rw [slice?_pos (data.drop 12) 4 8 (by omega) (by omega)]
      dsimp only
      simp only [List.drop_zero]
      by_cases h3 : uint32le ((data.drop 12).take 4) 0 > (data.drop 12).length - 8
      · rw [if_pos h3]; rfl
      · rw [if_neg h3]
        push_neg at h3
        rw [slice?_pos (data.drop 12) 8 (8 + uint32le ((data.drop 12).take 4) 0)
          (by omega) (by omega)]
        dsimp only
        cases lookup (((data.drop 12).take (8 + uint32le ((data.drop 12).take 4) 0)).drop 8) with
        | none => rfl
        | some basePath =>
          dsimp only
          by_cases h4 : a = FAN_EVENT_INFO_TYPE_DFID_NAME
          · rw [if_pos h4]
            by_cases h5 : (data.drop 12).length > 8 + uint32le ((data.drop 12).take 4) 0
            · rw [if_pos h5]
              unfold drop?
              rw [if_pos (by omega :
                8 + uint32le ((data.drop 12).take 4) 0 ≤ (data.drop 12).length)]
              dsimp only
              split_ifs <;> rfl
            · rw [if_neg h5]; rfl
          · rw [if_neg h4]; rfl

/-! ## Lemmas about handle resolution on well-laid-out payloads -/

theorem takeWhile_ne_zero_append (nm : List Nat) (h : ∀ c ∈ nm, c ≠ 0) :
    (nm ++ [0]).takeWhile (fun c => c != 0) = nm := by
  induction nm with
  | nil => rfl
  | cons x xs ih =>
    have hx : x ≠ 0 := h x (List.mem_cons_self x xs)
    rw [List.cons_append, List.takeWhile_cons_of_pos (by simpa using hx)]
    rw [ih (fun c hc => h c (List.mem_cons_of_mem x hc))]

theorem strOfBytes_ne_empty (l : List Nat) (h : l ≠ []) : strOfBytes l ≠ "" := by
  unfold strOfBytes
  intro he
  apply h
  have h2 : l.map Char.ofNat = [] := by
    have h3 := congrArg String.data he
    simpa using h3
  simpa using h2

theorem take_drop_middle_segment (A B C : List Nat) (m k : Nat)
    (hA : A.length = m) (hB : B.length = k) :
    ((A ++ B ++ C).take (m + k)).drop m = B := by
  rw [List.append_assoc, List.take_append_eq_append_take,
    List.take_of_length_le (by omega), hA, Nat.add_sub_cancel_left,
    List.take_left' hB]
  exact List.drop_left' hA

/-- `resolve` on a fully well-formed DFID+NAME payload: info type 2,
an 11-byte remainder of the info-FID header, the 4-byte little-endian
`handle_bytes` field declaring the body length, a 4-byte `handle_type`,
the handle body, and a non-empty NUL-terminated child name.  When the
oracle resolves the body to a non-empty directory, `resolve` returns
the directory and the name with success. -/
theorem resolve_dfid_name (lookup : List Nat → Option String)
    (pad ht body nm : List Nat) (b0 : Nat) (basePath : String)
    (hpad : pad.length = 11) (hht : ht.length = 4) (hbody : body.length = b0)
    (hnm : nm ≠ []) (hnm0 : ∀ c ∈ nm, c ≠ 0)
    (hlk : lookup body = some basePath) (hbp : basePath ≠ "") :
    resolve lookup
        (FAN_EVENT_INFO_TYPE_DFID_NAME ::
          (pad ++ ([b0, 0, 0, 0] ++ ht ++ body ++ (nm ++ [0])))) =
      some (basePath, strOfBytes nm, true) := by
  have hEI : EventInfoFidLen = 12 := rfl
  have hFH : FileHandleLen = 8 := rfl
  set tail := [b0, 0, 0, 0] ++ ht ++ body ++ (nm ++ [0]) with htail
  have htailLen : tail.length = 9 + b0 + nm.length := by
    simp only [htail, List.length_append, List.length_cons, List.length_nil, hht, hbody]
    omega
  have hdataLen :
      (FAN_EVENT_INFO_TYPE_DFID_NAME :: (pad ++ tail)).length = 12 + tail.length := by
    simp only [List.length_cons, List.length_append, hpad]
    omega
  unfold resolve
  rw [if_neg (by omega : ¬ (FAN_EVENT_INFO_TYPE_DFID_NAME :: (pad ++ tail)).length < EventInfoFidLen)]
  simp only [List.get?_cons_zero]
  have hdrop : (FAN_EVENT_INFO_TYPE_DFID_NAME :: (pad ++ tail)).drop EventInfoFidLen = tail := by
    rw [hEI, List.drop_succ_cons]
    exact List.drop_left' hpad
  rw [hdrop]
  rw [if_neg (by omega : ¬ tail.length < FileHandleLen)]
  rw [slice?_pos tail 0 4 (by omega) (by omega)]
  rw [slice?_pos tail 4 8 (by omega) (by omega)]
  dsimp only
  simp only [List.drop_zero]
  have htake4 : tail.take 4 = [b0, 0, 0, 0] := by
    rw [htail, List.append_assoc, List.append_assoc]
    exact List.take_left' rfl
  have hu32 : uint32le [b0, 0, 0, 0] 0 = b0 := by
    simp [uint32le]
  rw [htake4, hu32]
  rw [if_neg (by omega : ¬ b0 > tail.length - FileHandleLen)]
  rw [slice?_pos tail FileHandleLen (FileHandleLen + b0) (by omega) (by omega)]
  have hraw : (tail.take (FileHandleLen + b0)).drop FileHandleLen = body := by
    rw [htail, hFH]
    exact take_drop_middle_segment ([b0, 0, 0, 0] ++ ht) body (nm ++ [0]) 8 b0
      (by simp [hht]) hbody
  rw [hraw]
  dsimp only
  rw [hlk]
  dsimp only
  rw [if_pos trivial]
  rw [if_pos (by omega : tail.length > FileHandleLen + b0)]
  unfold drop?
  rw [if_pos (by omega : FileHandleLen + b0 ≤ tail.length)]
  dsimp only
  have hdropName : tail.drop (FileHandleLen + b0) = nm ++ [0] := by
    rw [htail, hFH]
    exact List.drop_left' (by simp [hht, hbody]; omega)
  rw [hdropName, takeWhile_ne_zero_append nm hnm0]
  rw [if_pos ⟨strOfBytes_ne_empty nm hnm, hbp⟩]
  split_ifs with h
  · rw [h]
  · rfl

/-! ## Claim C7 -/

/-- C7: when handle resolution yields the directory path "/" and the
DFID+NAME payload carries a non-empty child name, `resolve` returns
`("/", name)` with success — the directory is not collapsed to the
empty string — and a matching non-directory CREATE event with that
payload produces a listener delivery whose directory argument is "/". -/
theorem c7_root_not_collapsed (lookup : List Nat → Option String) (filter : List String)
    (fpc : List (String × String)) (pad ht body nm : List Nat) (b0 : Nat)
    (hpad : pad.length = 11) (hht : ht.length = 4) (hbody : body.length = b0)
    (hnm : nm ≠ []) (hnm0 : ∀ c ∈ nm, c ≠ 0)
    (hlk : lookup body = some "/")
    (hmatch : filterMatch filter ("/" ++ strOfBytes nm) = true)
    (hmiss : fpc.lookup ("/" ++ strOfBytes nm) = none) :
    resolve lookup
        (FAN_EVENT_INFO_TYPE_DFID_NAME ::
          (pad ++ ([b0, 0, 0, 0] ++ ht ++ body ++ (nm ++ [0])))) =
      some ("/", strOfBytes nm, true) ∧
    processEvent lookup filter fpc
        { mask := FAN_CREATE, isDir := false,
          handle := FAN_EVENT_INFO_TYPE_DFID_NAME ::
            (pad ++ ([b0, 0, 0, 0] ++ ht ++ body ++ (nm ++ [0]))) } =
      some (some ("CREATE", "/", strOfBytes nm, false),
        ("/" ++ strOfBytes nm, "CREATE") :: fpc) := by
  have hres := resolve_dfid_name lookup pad ht body nm b0 "/" hpad hht hbody hnm hnm0 hlk
    (by decide)
  refine ⟨hres, ?_⟩
  unfold processEvent
  dsimp only
  rw [hres]
  dsimp only
  rw [if_neg (by
    rintro (h | h | h)
    · exact absurd h (by decide)
    · exact absurd h (by decide)
    · exact strOfBytes_ne_empty nm hnm h)]
  have hjoin : filepathJoin "/" (strOfBytes nm) = "/" ++ strOfBytes nm := if_pos rfl
  rw [hjoin, hmatch]
  rw [if_neg (by decide : ¬ (true = false))]
  rw [hmiss]
  rfl

/-- Witness for `c7_root_not_collapsed`: a concrete payload whose
handle body resolves to "/" and whose name is "etc" yields
`("/", "etc")` and a listener call `("CREATE", "/", "etc", false)`. -/
theorem c7_root_not_collapsed_witness :
    resolve (fun h => if h == [9] then some "/" else none)
        (FAN_EVENT_INFO_TYPE_DFID_NAME ::
          ([0, 0, 0, 0, 0, 0, 0, 0, 0, 0, 0] ++
            ([1, 0, 0, 0] ++ [0, 0, 0, 0] ++ [9] ++ ([101, 116, 99] ++ [0])))) =
      some ("/", "etc", true) ∧
    processEvent (fun h => if h == [9] then some "/" else none) ["/etc"] []
        { mask := FAN_CREATE, isDir := false,
          handle := FAN_EVENT_INFO_TYPE_DFID_NAME ::
            ([0, 0, 0, 0, 0, 0, 0, 0, 0, 0, 0] ++
              ([1, 0, 0, 0] ++ [0, 0, 0, 0] ++ [9] ++ ([101, 116, 99] ++ [0]))) } =
      some (some ("CREATE", "/", "etc", false), [("/etc", "CREATE")]) := by
  obtain ⟨h1, h2⟩ := c7_root_not_collapsed (fun h => if h == [9] then some "/" else none)
    ["/etc"] [] [0, 0, 0, 0, 0, 0, 0, 0, 0, 0, 0] [0, 0, 0, 0] [9] [101, 116, 99] 1
    (by decide) (by decide) (by decide) (by decide) (by decide) (by decide) (by decide) rfl
  exact ⟨h1.trans (by decide), h2.trans (by decide)⟩

/-! ## Claim C10 -/

/-- C10: a well-formed record whose info payload is shorter than 20
bytes (the 12-byte info-FID header plus the 8-byte file_handle header)
is still enqueued as an Event, but with a nil handle; `resolve` fails
on every input shorter than the info-FID header, so the process stage
drops such an event — no listener call, no cache change. -/
theorem c10_short_payload (r : List Nat) (lookup : List Nat → Option String)
    (filter : List String) (fpc : List (String × String))
    (h : wellFormedRecord r)
    (hshort : r.length - EventMetadataLen < EventInfoFidLen + FileHandleLen) :
    captureEvents r = some [recordEvent r] ∧ (recordEvent r).handle = [] ∧
    (∀ d : List Nat, d.length < EventInfoFidLen → resolve lookup d = some ("", "", false)) ∧
    processEvent lookup filter fpc (recordEvent r) = some (none, fpc) := by
  have hh : (recordEvent r).handle = [] := by
    unfold recordEvent
    dsimp only
    rw [if_neg (by omega)]
  refine ⟨captureEvents_single r h, hh, ?_, ?_⟩
  · intro d hd
    unfold resolve
    rw [if_pos hd]
  · unfold processEvent
    rw [hh]
    rfl

/-- Witness for `c10_short_payload`: a concrete 24-byte record (empty
info payload) yields one event — whose handle is nil — and that event
is dropped by the process stage. -/
theorem c10_short_payload_witness :
    captureEvents [24, 0, 0, 0, 3, 0, 0, 0, 0, 1, 0, 0, 0, 0, 0, 0, 0, 0, 0, 0, 0, 0, 0, 0] =
      some [{ mask := 256, isDir := false, handle := [] }] ∧
    resolve (fun _ => none) [1, 2, 3] = some ("", "", false) ∧
    processEvent (fun _ => none) ["/"] []
        (recordEvent [24, 0, 0, 0, 3, 0, 0, 0, 0, 1, 0, 0, 0, 0, 0, 0, 0, 0, 0, 0, 0, 0, 0, 0]) =
      some (none, []) := by
  obtain ⟨h1, _, h2, h3⟩ := c10_short_payload
    [24, 0, 0, 0, 3, 0, 0, 0, 0, 1, 0, 0, 0, 0, 0, 0, 0, 0, 0, 0, 0, 0, 0, 0]
    (fun _ => none) ["/"] [] (by decide) (by decide)
  exact ⟨h1.trans (by decide), h2 [1, 2, 3] (by decide), h3⟩

/-! ## Claim C6 -/

/-- C6: two events that resolve to the same absolute path and pass the
filter, the second arriving while the path-cache entry inserted for the
first is still live, produce exactly one listener delivery — the first
one — regardless of the two events' kinds: the dedup key is the path
alone, so the second event is dropped even when its mask differs. -/
theorem c6_dedup_window (lookup : List Nat → Option String) (filter : List String)
    (c0 : List (String × String)) (ev1 ev2 : Event) (d1 f1 d2 f2 : String)
    (h1 : resolve lookup ev1.handle = some (d1, f1, true)) (hd1 : d1 ≠ "") (hf1 : f1 ≠ "")
    (h2 : resolve lookup ev2.handle = some (d2, f2, true)) (hd2 : d2 ≠ "") (hf2 : f2 ≠ "")
    (hdir1 : ev1.isDir = false) (hdir2 : ev2.isDir = false)
    (hsame : filepathJoin d2 f2 = filepathJoin d1 f1)
    (hmatch : filterMatch filter (filepathJoin d1 f1) = true)
    (hmiss : c0.lookup (filepathJoin d1 f1) = none) :
    processEvent lookup filter c0 ev1 =
      some (some (maskToString ev1.mask, d1, f1, false),
        (filepathJoin d1 f1, maskToString ev1.mask) :: c0) ∧
    processEvent lookup filter ((filepathJoin d1 f1, maskToString ev1.mask) :: c0) ev2 =
      some (none, (filepathJoin d1 f1, maskToString ev1.mask) :: c0) := by
  constructor
  · unfold processEvent
    rw [h1]
    dsimp only
    rw [if_neg (by simp [hd1, hf1])]
    rw [hdir1]
    rw [if_neg Bool.false_ne_true]
    rw [if_neg (by simp [hmatch])]
    rw [hmiss]
  · unfold processEvent
    rw [h2]
    dsimp only
    rw [if_neg (by simp [hd2, hf2])]
    rw [hdir2]
    rw [if_neg Bool.false_ne_true]
    rw [hsame]
    rw [if_neg (by simp [hmatch])]
    have hhit : ((filepathJoin d1 f1, maskToString ev1.mask) :: c0).lookup (filepathJoin d1 f1) =
        some (maskToString ev1.mask) := by
      simp [List.lookup]
    rw [hhit]

/-- Witness for `c6_dedup_window`: a CREATE then a CLOSE_WRITE on the
same resolved path `/tmp/a` within the dedup window: the CREATE is
delivered, the CLOSE_WRITE is dropped. -/
theorem c6_dedup_window_witness :
    processEvent (fun h => if h == [7] then some "/tmp" else none) ["/tmp"] []
        { mask := FAN_CREATE, isDir := false,
          handle := [2, 0, 0, 0, 0, 0, 0, 0, 0, 0, 0, 0] ++
            [1, 0, 0, 0] ++ [0, 0, 0, 0] ++ [7] ++ [97, 0] } =
      some (some ("CREATE", "/tmp", "a", false), [("/tmp/a", "CREATE")]) ∧
    processEvent (fun h => if h == [7] then some "/tmp" else none) ["/tmp"] [("/tmp/a", "CREATE")]
        { mask := FAN_CLOSE_WRITE, isDir := false,
          handle := [2, 0, 0, 0, 0, 0, 0, 0, 0, 0, 0, 0] ++
            [1, 0, 0, 0] ++ [0, 0, 0, 0] ++ [7] ++ [97, 0] } =
      some (none, [("/tmp/a", "CREATE")]) := by
  obtain ⟨h1, h2⟩ := c6_dedup_window (fun h => if h == [7] then some "/tmp" else none)
    ["/tmp"] []
    { mask := FAN_CREATE, isDir := false,
      handle := [2, 0, 0, 0, 0, 0, 0, 0, 0, 0, 0, 0] ++
        [1, 0, 0, 0] ++ [0, 0, 0, 0] ++ [7] ++ [97, 0] }
    { mask := FAN_CLOSE_WRITE, isDir := false,
      handle := [2, 0, 0, 0, 0, 0, 0, 0, 0, 0, 0, 0] ++
        [1, 0, 0, 0] ++ [0, 0, 0, 0] ++ [7] ++ [97, 0] }
    "/tmp" "a" "/tmp" "a"
    (by decide) (by decide) (by decide) (by decide) (by decide) (by decide)
    rfl rfl rfl (by decide) rfl
  exact ⟨h1.trans (by decide), h2.trans (by decide)⟩

/-! ## Claim C5 -/

/-- C5: `maskToString` evaluates the mask bits in the fixed order
CREATE, DELETE, DELETE_SELF, CLOSE_WRITE, MOVED_TO (it agrees with the
spec-side matcher built from that ordered table for every mask), joins
the matched names with "|", and when no bit matches returns the mask as
the hexadecimal string "0x<hex>"; in particular
`maskToString (CREATE|MOVED_TO) = "CREATE|MOVED_TO"` and
`maskToString 0 = "0x0"`. -/
theorem c5_mask_mapping :
    (∀ mask : Nat, maskToString mask = specMaskToString mask) ∧
      maskToString (FAN_CREATE ||| FAN_MOVED_TO) = "CREATE|MOVED_TO" ∧
      maskToString 0 = "0x0" := by
  refine ⟨?_, by decide, by decide⟩
  intro mask
  by_cases h1 : mask &&& FAN_CREATE ≠ 0 <;>
    by_cases h2 : mask &&& FAN_DELETE ≠ 0 <;>
      by_cases h3 : mask &&& FAN_DELETE_SELF ≠ 0 <;>
        by_cases h4 : mask &&& FAN_CLOSE_WRITE ≠ 0 <;>
          by_cases h5 : mask &&& FAN_MOVED_TO ≠ 0 <;>
            simp [maskToString, specMaskToString, specMaskTable, h1, h2, h3, h4, h5]

/-! ## Claim C1 -/

/-- C1 counterexample: with the configured prefix `/var/log`, the
filter match of the code (radix-tree longest string prefix) reports a
match for the query `/var/logging/x`, although `/var/log` is not a
prefix of it at a path-component boundary — refuting the claimed
equivalence with component-boundary matching. -/
theorem c1_counterexample :
    filterMatch ["/var/log"] "/var/logging/x" = true ∧
      specBoundaryMatch ["/var/log"] "/var/logging/x" = false := by
  decide

/-- C1 (amended): for every configured prefix set and every query path
Q, the filter reports a match if and only if some configured prefix is
a prefix of Q **as a string** (no component-boundary requirement); in
particular, for the configured prefix `/var/log` the query path
`/var/logging/x` **does** match, as does `/var/log/syslog`. -/
theorem c1_filter_string_prefix :
    (∀ (ps : List String) (q : String),
        filterMatch ps q = true ↔ ∃ p ∈ ps, p.data.isPrefixOf q.data = true) ∧
      filterMatch ["/var/log"] "/var/logging/x" = true ∧
      filterMatch ["/var/log"] "/var/log/syslog" = true := by
  refine ⟨?_, by decide, by decide⟩
  intro ps q
  unfold filterMatch
  simp [List.any_eq_true]

/-! ## Claim C8 -/

/-- C8: `Initialize` performs its three acquisition steps in order —
the notification descriptor, the filesystem-wide mark, the root
directory descriptor — a later step being attempted only after all
earlier ones succeed; on failure of any step it returns an error whose
prefix identifies the failing step, and every descriptor acquired in
the preceding steps has been closed (no resource leaks on the error
path); on success nothing is closed and both descriptors are
returned. -/
theorem c8_init_unwind (env : InitEnv) :
    (∀ e, env.fanotifyInit = .error e →
      Initialize env = (.error ("init: " ++ e), [])) ∧
    (∀ ffd e, env.fanotifyInit = .ok ffd → env.fanotifyMark ffd = .error e →
      Initialize env = (.error ("mark: " ++ e), [ffd])) ∧
    (∀ ffd e, env.fanotifyInit = .ok ffd → env.fanotifyMark ffd = .ok () →
      env.openRoot = .error e →
      Initialize env = (.error ("open root: " ++ e), [ffd])) ∧
    (∀ ffd rfd, env.fanotifyInit = .ok ffd → env.fanotifyMark ffd = .ok () →
      env.openRoot = .ok rfd →
      Initialize env = (.ok (ffd, rfd), [])) := by
  refine ⟨?_, ?_, ?_, ?_⟩
  · intro e h1
    unfold Initialize
    rw [h1]
  · intro ffd e h1 h2
    unfold Initialize
    rw [h1]
    dsimp only
    rw [h2]
  · intro ffd e h1 h2 h3
    unfold Initialize
    rw [h1]
    dsimp only
    rw [h2]
    dsimp only
    rw [h3]
  · intro ffd rfd h1 h2 h3
    unfold Initialize
    rw [h1]
    dsimp only
    rw [h2]
    dsimp only
    rw [h3]

/-- Witness for `c8_init_unwind`: four concrete environments, one per
scenario — each failing step yields its distinguishing error text and
closes exactly the previously acquired descriptors; full success
closes nothing. -/
theorem c8_init_unwind_witness :
    Initialize (InitEnv.mk (.error "boom") (fun _ => .ok ()) (.ok 9)) =
      (.error "init: boom", []) ∧
    Initialize (InitEnv.mk (.ok 7) (fun _ => .error "boom") (.ok 9)) =
      (.error "mark: boom", [7]) ∧
    Initialize (InitEnv.mk (.ok 7) (fun _ => .ok ()) (.error "boom")) =
      (.error "open root: boom", [7]) ∧
    Initialize (InitEnv.mk (.ok 7) (fun _ => .ok ()) (.ok 9)) =
      (.ok (7, 9), []) :=
  ⟨((c8_init_unwind _).1 "boom" rfl).trans (by rfl),
    ((c8_init_unwind _).2.1 7 "boom" rfl rfl).trans (by rfl),
    ((c8_init_unwind _).2.2.1 7 "boom" rfl rfl rfl).trans (by rfl),
    (c8_init_unwind _).2.2.2 7 9 rfl rfl rfl⟩

end Watchman
